import Mathlib

/-!
Verification of maxwellito/comdb2 session-offload core and SSL backend
configuration.

Part 1 embeds `src/db/ssl_bend.c` (present in the sources):
`ssl_process_lrl`, `ssl_bend_init` and the globals they mutate.
Part 2 models the osql session core declared in `src/db/osqlsession.h`;
the implementation file (osqlsession.c) is not among the sources, so those
definitions are modelled from the specification document.
-/

namespace Comdb2

/-! ## Part 1: SSL backend, from src/db/ssl_bend.c -/

/-- The `ssl_mode` enum from ssl_support.h (declaration not among the
sources; order of constructors mirrors the upstream enum, which the code
relies on through comparisons such as `mode >= SSL_UNKNOWN`). -/
inductive ssl_mode
  | SSL_DISABLE
  | SSL_UNKNOWN
  | SSL_ALLOW
  | SSL_REQUIRE
  | SSL_VERIFY_CA
  | SSL_VERIFY_HOSTNAME
  | SSL_VERIFY_DBNAME
deriving DecidableEq, Repr

/-- Numeric rank of an `ssl_mode`, used for the C integer comparisons on
the enum. -/
def ssl_mode.rank : ssl_mode → Nat
  | .SSL_DISABLE => 0
  | .SSL_UNKNOWN => 1
  | .SSL_ALLOW => 2
  | .SSL_REQUIRE => 3
  | .SSL_VERIFY_CA => 4
  | .SSL_VERIFY_HOSTNAME => 5
  | .SSL_VERIFY_DBNAME => 6

/-- POSIX EINVAL, the value returned by `ssl_process_lrl` on a missing
option value. -/
def EINVAL : Int := 22

/-- OpenSSL NID_undef. -/
def NID_undef : Int := 0

/-- OpenSSL NID_commonName. -/
def NID_commonName : Int := 13

/-- OpenSSL NID_userId (the build is assumed to have `NID_userId`,
RFC 4514). -/
def NID_userId : Int := 458

/-- OpenSSL NID_host (the build is assumed to have `NID_host`,
RFC 4524). -/
def NID_host : Int := 862

/-- The mutable SSL globals of ssl_bend.c (file-scope variables at
src/db/ssl_bend.c lines 52-80).  String-valued globals that start out as
NULL pointers are `Option String`. -/
structure SSLGlobals where
  gbl_cert_dir : Option String
  gbl_cert_file : Option String
  gbl_key_file : Option String
  gbl_ca_file : Option String
  gbl_crl_file : Option String
  gbl_ssl_allow_remsql : Int
  gbl_sess_cache_sz : Int
  gbl_ciphers : String
  gbl_nid_user : Int
  gbl_nid_dbname : Int
  gbl_min_tls_ver : Rat
  gbl_ssl_allow_localhost : Int
  gbl_client_ssl_mode : ssl_mode
  gbl_rep_ssl_mode : ssl_mode
deriving DecidableEq, Repr

/-- Initial values of the SSL globals (their C initializers). -/
def sslGlobalsInit : SSLGlobals :=
  { gbl_cert_dir := none
    gbl_cert_file := none
    gbl_key_file := none
    gbl_ca_file := none
    gbl_crl_file := none
    gbl_ssl_allow_remsql := 0
    gbl_sess_cache_sz := -1
    gbl_ciphers := "HIGH:!aNULL:!eNULL"
    gbl_nid_user := NID_undef
    gbl_nid_dbname := NID_host
    gbl_min_tls_ver := 0
    gbl_ssl_allow_localhost := 0
    gbl_client_ssl_mode := ssl_mode.SSL_UNKNOWN
    gbl_rep_ssl_mode := ssl_mode.SSL_UNKNOWN }

/-- External library calls made by `ssl_process_lrl`, taken as oracles:
`toknum` (numeric token parse), `OBJ_txt2nid`, and `atof`.  `tokdup`
(string duplication) is modelled as always succeeding. -/
structure CEnv where
  toknum : String → Int
  objTxt2nid : String → Int
  atof : String → Rat

/-- A trivial oracle environment, used to evaluate the model on concrete
inputs. -/
def cenvZero : CEnv :=
  { toknum := fun _ => 0, objTxt2nid := fun _ => 0, atof := fun _ => 0 }

/-- The C test `tok[0] == '#'` on the first token of the line. -/
def firstCharIsHash (t : String) : Bool :=
  match t.data with
  | [] => false
  | c :: _ => c = '#'

/-- `ssl_process_lrl` (src/db/ssl_bend.c lines 85-294).  The `segtok`
tokenization of the line is abstracted to the list of its whitespace
separated tokens; a missing second token is the empty tail.  The build is
assumed to define HAVE_CRL (so the `ssl_crl` branch is compiled in) and
`NID_userId`.  Returns the C return code and the updated globals. -/
def ssl_process_lrl (env : CEnv) (g : SSLGlobals) (toks : List String) :
    Int × SSLGlobals :=
  match toks with
  | [] => (0, g)
  | t :: rest =>
    if firstCharIsHash t then (0, g)
    else if t = "ssl_client_mode" then
      match rest with
      | [] => (EINVAL, g)
      | v :: _ =>
        if v = "ALLOW" then (0, { g with gbl_client_ssl_mode := .SSL_ALLOW })
        else if v = "REQUIRE" then
          (0, { g with gbl_client_ssl_mode := .SSL_REQUIRE })
        else if v = "VERIFY_CA" then
          (0, { g with gbl_client_ssl_mode := .SSL_VERIFY_CA })
        else if v = "VERIFY_HOSTNAME" then
          (0, { g with gbl_client_ssl_mode := .SSL_VERIFY_HOSTNAME })
        else if v = "OPTIONAL" then
          (0, { g with gbl_client_ssl_mode := .SSL_UNKNOWN })
        else if v = "VERIFY_DBNAME" then
          (0, { g with gbl_client_ssl_mode := .SSL_VERIFY_DBNAME })
        else (EINVAL, g)
    else if t = "ssl_replicant_mode" then
      match rest with
      | [] => (EINVAL, g)
      | v :: _ =>
        if v = "ALLOW" then (0, { g with gbl_rep_ssl_mode := .SSL_ALLOW })
        else if v = "REQUIRE" then
          (0, { g with gbl_rep_ssl_mode := .SSL_REQUIRE })
        else if v = "VERIFY_CA" then
          (0, { g with gbl_rep_ssl_mode := .SSL_VERIFY_CA })
        else if v = "VERIFY_HOSTNAME" then
          (0, { g with gbl_rep_ssl_mode := .SSL_VERIFY_HOSTNAME })
        else if v = "VERIFY_DBNAME" then
          (0, { g with gbl_rep_ssl_mode := .SSL_VERIFY_DBNAME })
        else (EINVAL, g)
    else if t = "ssl_cert_path" then
      match rest with
      | [] => (EINVAL, g)
      | v :: _ => (0, { g with gbl_cert_dir := some v })
    else if t = "ssl_cert" then
      match rest with
      | [] => (EINVAL, g)
      | v :: _ => (0, { g with gbl_cert_file := some v })
    else if t = "ssl_key" then
      match rest with
      | [] => (EINVAL, g)
      | v :: _ => (0, { g with gbl_key_file := some v })
    else if t = "ssl_ca" then
      match rest with
      | [] => (EINVAL, g)
      | v :: _ => (0, { g with gbl_ca_file := some v })
    else if t = "ssl_crl" then
      match rest with
      | [] => (EINVAL, g)
      | v :: _ => (0, { g with gbl_crl_file := some v })
    else if t = "ssl_sess_cache_size" then
      match rest with
      | [] => (EINVAL, g)
      | v :: _ => (0, { g with gbl_sess_cache_sz := env.toknum v })
    else if t = "ssl_allow_remsql" then
      match rest with
      | [] => (0, { g with gbl_ssl_allow_remsql := 1 })
      | v :: _ => (0, { g with gbl_ssl_allow_remsql := env.toknum v })
    else if t = "ssl_cipher_suites" then
      match rest with
      | [] => (EINVAL, g)
      | v :: _ => (0, { g with gbl_ciphers := v })
    else if t = "ssl_map_cert_to_user" then
      match rest with
      | [] => (0, { g with gbl_nid_user := NID_userId })
      | v :: _ => (0, { g with gbl_nid_user := env.objTxt2nid v })
    else if t = "ssl_dbname_field" then
      match rest with
      | [] => (EINVAL, g)
      | v :: _ => (0, { g with gbl_nid_dbname := env.objTxt2nid v })
    else if t = "ssl_min_tls_ver" then
      match rest with
      | [] => (EINVAL, g)
      | v :: _ => (0, { g with gbl_min_tls_ver := env.atof v })
    else if t = "ssl_allow_localhost" then
      (0, { g with gbl_ssl_allow_localhost := 1 })
    else (0, g)

/-- Result of `ssl_bend_init`: return code, the two (possibly updated)
SSL modes, and whether `ssl_new_ctx` was invoked. -/
structure BendInit where
  rc : Int
  clientMode : ssl_mode
  repMode : ssl_mode
  ctxAttempted : Bool
deriving DecidableEq, Repr

/-- `ssl_bend_init` (src/db/ssl_bend.c lines 296-333), restricted to its
effect on the return code and the two mode globals.  `rcInit` is the
result of the external `cdb2_init_ssl` call and `rcNewCtx` the result
`ssl_new_ctx` would report if invoked. -/
def ssl_bend_init (rcInit rcNewCtx : Int) (cm rm : ssl_mode) : BendInit :=
  if rcInit ≠ 0 then ⟨rcInit, cm, rm, false⟩
  else if ssl_mode.SSL_UNKNOWN.rank ≤ cm.rank ∨
      ssl_mode.SSL_UNKNOWN.rank ≤ rm.rank then
    if rcNewCtx = 0 then
      ⟨0, if cm = .SSL_UNKNOWN then .SSL_ALLOW else cm,
          if rm = .SSL_UNKNOWN then .SSL_ALLOW else rm, true⟩
    else if cm = .SSL_UNKNOWN ∧ rm = .SSL_UNKNOWN then
      ⟨0, .SSL_DISABLE, .SSL_DISABLE, true⟩
    else ⟨rcNewCtx, cm, rm, true⟩
  else ⟨0, cm, rm, false⟩

/-- The recognized SSL options that require a value token. -/
def sslValueOpts : List String :=
  ["ssl_client_mode", "ssl_replicant_mode", "ssl_cert_path", "ssl_cert",
   "ssl_key", "ssl_ca", "ssl_crl", "ssl_sess_cache_size",
   "ssl_cipher_suites", "ssl_dbname_field", "ssl_min_tls_ver"]

/-- All first tokens recognized by `ssl_process_lrl`. -/
def sslRecognizedOpts : List String :=
  sslValueOpts ++
    ["ssl_allow_remsql", "ssl_map_cert_to_user", "ssl_allow_localhost"]

/-- C9: every recognized SSL option that requires a value returns EINVAL
from `ssl_process_lrl` when the line has no second token, and leaves all
SSL globals (in particular the option's own variable) unchanged. -/
theorem ssl_process_lrl_missing_value (env : CEnv) (g : SSLGlobals)
    (opt : String) (h : opt ∈ sslValueOpts) :
    ssl_process_lrl env g [opt] = (EINVAL, g) := by
  simp only [sslValueOpts, List.mem_cons, List.mem_singleton] at h
  rcases h with rfl | rfl | rfl | rfl | rfl | rfl | rfl | rfl | rfl | rfl |
    rfl | h
  · rfl
  · rfl
  · rfl
  · rfl
  · rfl
  · rfl
  · rfl
  · rfl
  · rfl
  · rfl
  · rfl
  · cases h

/-- C9 witness: `ssl_cert` with no value yields EINVAL and leaves the
globals untouched. -/
theorem ssl_process_lrl_missing_value_w :
    "ssl_cert" ∈ sslValueOpts ∧
      ssl_process_lrl cenvZero sslGlobalsInit ["ssl_cert"] =
        (EINVAL, sslGlobalsInit) :=
  ⟨by decide,
   ssl_process_lrl_missing_value cenvZero sslGlobalsInit "ssl_cert"
     (by decide)⟩

/-- C10: an empty line, a line whose first token starts with '#', or a
line whose first token is not one of the recognized SSL options, makes
`ssl_process_lrl` return 0 and leave every SSL global unchanged. -/
theorem ssl_process_lrl_frame (env : CEnv) (g : SSLGlobals)
    (line : List String)
    (h : line = [] ∨
      ∃ t rest, line = t :: rest ∧
        (firstCharIsHash t = true ∨ t ∉ sslRecognizedOpts)) :
    ssl_process_lrl env g line = (0, g) := by
  rcases h with rfl | ⟨t, rest, rfl, h⟩
  · rfl
  · by_cases hs : firstCharIsHash t = true
    · simp [ssl_process_lrl, hs]
    · rcases h with h | h
      · exact absurd h hs
      · simp only [sslRecognizedOpts, sslValueOpts, List.mem_append,
          List.mem_cons, List.mem_singleton, not_or] at h
        obtain ⟨⟨h1, h2, h3, h4, h5, h6, h7, h8, h9, h10, h11⟩,
          h12, h13, h14⟩ := h
        simp [ssl_process_lrl, hs, h1, h2, h3, h4, h5, h6, h7, h8, h9,
          h10, h11, h12, h13, h14]

/-- C10 witness: the unrecognized line `nonssl_option x` is a no-op with
return code 0. -/
theorem ssl_process_lrl_frame_w :
    ssl_process_lrl cenvZero sslGlobalsInit ["nonssl_option", "x"] =
      (0, sslGlobalsInit) :=
  ssl_process_lrl_frame cenvZero sslGlobalsInit ["nonssl_option", "x"]
    (Or.inr ⟨"nonssl_option", ["x"], rfl, Or.inr (by decide)⟩)

/-- C8: when `ssl_new_ctx` is invoked by `ssl_bend_init` and fails
(nonzero result), then if both SSL modes were still SSL_UNKNOWN they are
both set to SSL_DISABLE and the function returns 0; if either mode was
explicitly configured, the nonzero failure code is returned and the modes
are unchanged. -/
theorem ssl_bend_init_ctx_fail (rcInit rcNewCtx : Int) (cm rm : ssl_mode)
    (hctx : (ssl_bend_init rcInit rcNewCtx cm rm).ctxAttempted = true)
    (hfail : rcNewCtx ≠ 0) :
    (cm = .SSL_UNKNOWN ∧ rm = .SSL_UNKNOWN →
      ssl_bend_init rcInit rcNewCtx cm rm =
        ⟨0, .SSL_DISABLE, .SSL_DISABLE, true⟩) ∧
    (¬(cm = .SSL_UNKNOWN ∧ rm = .SSL_UNKNOWN) →
      (ssl_bend_init rcInit rcNewCtx cm rm).rc = rcNewCtx ∧
      (ssl_bend_init rcInit rcNewCtx cm rm).clientMode = cm ∧
      (ssl_bend_init rcInit rcNewCtx cm rm).repMode = rm) := by
  by_cases h0 : rcInit ≠ 0
  · simp [ssl_bend_init, h0] at hctx
  · by_cases hcond : ssl_mode.SSL_UNKNOWN.rank ≤ cm.rank ∨
        ssl_mode.SSL_UNKNOWN.rank ≤ rm.rank
    · constructor
      · rintro ⟨rfl, rfl⟩
        simp [ssl_bend_init, h0, hcond, hfail]
      · intro hne
        simp [ssl_bend_init, h0, hcond, hfail, hne]
    · simp [ssl_bend_init, h0, hcond] at hctx

/-- C8 witness: with both modes unconfigured and a failing context
creation, both modes become SSL_DISABLE and the return code is 0. -/
theorem ssl_bend_init_ctx_fail_w :
    (ssl_bend_init 0 1 .SSL_UNKNOWN .SSL_UNKNOWN).ctxAttempted = true ∧
    (ssl_mode.SSL_UNKNOWN = ssl_mode.SSL_UNKNOWN ∧
        ssl_mode.SSL_UNKNOWN = ssl_mode.SSL_UNKNOWN →
      ssl_bend_init 0 1 .SSL_UNKNOWN .SSL_UNKNOWN =
        ⟨0, .SSL_DISABLE, .SSL_DISABLE, true⟩) :=
  ⟨by decide,
   (ssl_bend_init_ctx_fail 0 1 .SSL_UNKNOWN .SSL_UNKNOWN (by decide)
     (by decide)).1⟩

/-! ## Part 2: osql session core, declared in src/db/osqlsession.h.
The implementation file is not among the sources, so the operation bodies
below are modelled from the specification document (sections 3-5 and 8). -/

/-- Magic rqid value that means "please use uuid instead"
(src/db/osqlsession.h line 31). -/
def OSQL_RQID_USE_UUID : Nat := 1

/-- The errstat value stored at completion: an error kind plus message,
default-constructed (zeroed) meaning success (src/db/osqlsession.h
lines 61-62). -/
structure Errstat where
  errval : Int
  errstr : String
deriving DecidableEq, Repr

/-- The zeroed errstat, meaning success. -/
def errstatOk : Errstat := ⟨0, ""⟩

/-- One log operation delivered to a session: its sequence number, kind
and payload (payload bytes abstracted to a list of naturals). -/
structure OsqlOp where
  seq : Nat
  kind : Int
  payload : List Nat
deriving DecidableEq, Repr

/-- Modelled from the spec: the session record of `struct osql_sess`
(src/db/osqlsession.h lines 33-85) restricted to the fields the spec's
operation contracts use.  The two pthread locks, timestamps and
reorder bookkeeping fields are not modelled; `completed` is the rqid of
the completer (0 = not completed, as in the header comment), `bplog` is
the session's local operation log, `selectvGenids` the genid conflict
cache. -/
structure OsqlSess where
  rqid : Nat
  uuid : Nat
  iq : Option Nat
  tzname : String
  sql : String
  type : Nat
  clients : Int
  terminate : Bool
  dispatched : Bool
  completed : Nat
  completedUuid : Nat
  xerr : Errstat
  seq : Nat
  bplog : List OsqlOp
  tableversion : Nat
  selectvGenids : List (String × Nat)
deriving DecidableEq, Repr

/-- Modelled from the spec: `osql_sess_create_sock` allocates a session,
assigns its immutable identity and snapshots the timezone and type
(spec section 4.1, "create"); missing osqlsession.c.  Repository
registration is treated separately. -/
def osql_sess_create_sock (sql tzname : String) (type rqid uuid : Nat)
    (iq : Nat) : OsqlSess :=
  { rqid := rqid
    uuid := uuid
    iq := some iq
    tzname := tzname
    sql := sql
    type := type
    clients := 0
    terminate := false
    dispatched := false
    completed := 0
    completedUuid := 0
    xerr := errstatOk
    seq := 0
    bplog := []
    tableversion := 0
    selectvGenids := [] }

/-- Modelled from the spec: delivery of one op to a found session
(spec section 4.1, "receive-op"; missing osqlsession.c).  The session
tracks the highest sequence number seen; an op whose sequence number is
at most that counter is a duplicate and is dropped silently, otherwise
the op is appended to the local bplog and the counter updated. -/
def osql_sess_rcvop_deliver (s : OsqlSess) (op : OsqlOp) : OsqlSess :=
  if op.seq ≤ s.seq then s
  else { s with seq := op.seq, bplog := s.bplog ++ [op] }

/-- Modelled from the spec: `osql_sess_set_dispatched` marks the session
as owned by the block processor and clears the back-reference to the
originating execution context (spec section 4.1, "dispatch"; missing
osqlsession.c). -/
def osql_sess_set_dispatched (s : OsqlSess) : OsqlSess :=
  { s with dispatched := true, iq := none }

/-- Modelled from the spec: `osql_sess_set_complete` records, under the
completion lock, the completing identity and the error status (empty
status = success) (src/db/osqlsession.h lines 124-125, spec section 4.1,
"set-complete"; missing osqlsession.c). -/
def osql_sess_set_complete (rqid uuid : Nat) (xerr : Errstat)
    (s : OsqlSess) : OsqlSess :=
  { s with completed := rqid, completedUuid := uuid, xerr := xerr }

/-- Modelled from the spec: one read of the completion fields under the
completion lock: the observed status if a completed marker is set, and
the (unchanged) session (spec sections 3 and 5; missing osqlsession.c). -/
def osql_sess_read_complete (s : OsqlSess) : Option Errstat × OsqlSess :=
  (if s.completed ≠ 0 then some s.xerr else none, s)

/-- The statuses observed by a waiter performing `k` successive reads of
the completion fields. -/
def osql_sess_reads : Nat → OsqlSess → List (Option Errstat)
  | 0, _ => []
  | k + 1, s =>
    let r := osql_sess_read_complete s
    r.1 :: osql_sess_reads k r.2

/-- Modelled from the spec: `osql_sess_try_terminate`
(src/db/osqlsession.h lines 228-234, spec section 4.1, "try-terminate";
missing osqlsession.c).  `lockOk` is the outcome of the locking
primitives: on lock failure the result is -1 and the session unchanged;
a session that already completed, was dispatched, or was already
terminated is "already handled" (result 1, unchanged); otherwise the
terminate flag is set and the result is 0. -/
def osql_sess_try_terminate (lockOk : Bool) (s : OsqlSess) :
    Int × OsqlSess :=
  if lockOk = false then (-1, s)
  else if s.completed ≠ 0 ∨ s.dispatched = true ∨ s.terminate = true then
    (1, s)
  else (0, { s with terminate := true })

/-- Modelled from the spec: `osql_cache_selectv` adds a (table, genid)
pair to the genid conflict cache; recording a pair already present has
no additional effect (spec section 4.2, "record"; missing
osqlsession.c). -/
def osql_cache_selectv (s : OsqlSess) (tablename : String) (genid : Nat) :
    OsqlSess :=
  if (tablename, genid) ∈ s.selectvGenids then s
  else { s with selectvGenids := s.selectvGenids ++ [(tablename, genid)] }

/-- Modelled from the spec: `osql_process_selectv` replays the genid
conflict cache, invoking the caller-supplied writer once per recorded
pair with (table name, table version, genid) (src/db/osqlsession.h
lines 222-226, spec section 4.2, "replay"; missing osqlsession.c). -/
def osql_process_selectv {α : Type} (s : OsqlSess)
    (wr : α → String → Nat → Nat → α) (arg : α) : α :=
  s.selectvGenids.foldl (fun a p => wr a p.1 s.tableversion p.2) arg

/-- The session key: the numeric request id, or the UUID when the rqid
carries the sentinel (spec section 3, "Session identity", and design
note on the tagged key). -/
inductive SessKey
  | num (rqid : Nat)
  | uid (uuid : Nat)
deriving DecidableEq, Repr

/-- The key under which a session with the given rqid and uuid is
addressed: the UUID exactly when rqid is the sentinel
OSQL_RQID_USE_UUID. -/
def sessKeyOf (rqid uuid : Nat) : SessKey :=
  if rqid = OSQL_RQID_USE_UUID then .uid uuid else .num rqid

/-- Modelled from the spec: the Session Repository, a mapping from
session identity to session (spec section 4.3), as an association
list. -/
def Repo : Type := List (SessKey × OsqlSess)

/-- Repository lookup by key (spec section 4.3, "find"). -/
def repoFind (r : Repo) (k : SessKey) : Option OsqlSess :=
  (List.find? (fun p => decide (p.1 = k)) r).map Prod.snd

/-- Update in place the session stored under key `k`. -/
def repoUpdate (r : Repo) (k : SessKey) (f : OsqlSess → OsqlSess) :
    Repo :=
  List.map (fun p => if p.1 = k then (p.1, f p.2) else p) r

/-- Modelled from the spec: `osql_sess_rcvop` (src/db/osqlsession.h
lines 172-173, spec section 4.1, "receive-op"; missing osqlsession.c).
Looks the identity up in the Repository; if absent, reports not-found
through `found` (0) and returns success (0) with no side effect;
otherwise delivers the op to the found session.  Result:
(return code, found flag, updated repository). -/
def osql_sess_rcvop (r : Repo) (rqid uuid : Nat) (op : OsqlOp) :
    Int × Int × Repo :=
  let k := sessKeyOf rqid uuid
  match repoFind r k with
  | none => (0, 0, r)
  | some _ => (0, 1, repoUpdate r k (fun s => osql_sess_rcvop_deliver s op))

/-- Modelled from the spec: the lifecycle state of one session relevant
to reference counting and destruction (spec sections 3 and 4.1; missing
osqlsession.c): the `clients` count, whether the session is still
registered in the Repository, whether it has been destroyed, and how
many times destruction has happened. -/
structure SessLife where
  clients : Int
  registered : Bool
  destroyed : Bool
  dcount : Nat
deriving DecidableEq, Repr

/-- Lifecycle state right after create+register: zero clients,
registered, not destroyed. -/
def sessLifeInit : SessLife := ⟨0, true, false, 0⟩

/-- The lifecycle events: `osql_sess_addclient`, `osql_sess_remclient`,
and removal from the Repository.  A concurrent execution is an
interleaving, i.e. a sequence, of these atomic events. -/
inductive SessEv
  | add
  | rem
  | unreg
deriving DecidableEq, Repr

/-- Modelled from the spec: one lifecycle event (spec sections 4.1 and
4.3; missing osqlsession.c).  `add` increments the count; `rem`
decrements it and destroys the session when the count reaches zero and
it is already unregistered; `unreg` removes it from the Repository and
destroys it when the count is already zero.  A destroyed session
receives no further events. -/
def lifeStep (s : SessLife) (e : SessEv) : SessLife :=
  if s.destroyed then s
  else
    match e with
    | .add => { s with clients := s.clients + 1 }
    | .rem =>
      if s.clients - 1 = 0 ∧ s.registered = false then
        { s with clients := s.clients - 1, destroyed := true,
                 dcount := s.dcount + 1 }
      else { s with clients := s.clients - 1 }
    | .unreg =>
      if s.clients = 0 then
        { s with registered := false, destroyed := true,
                 dcount := s.dcount + 1 }
      else { s with registered := false }

/-- Run a sequence of lifecycle events. -/
def lifeRun (s : SessLife) (es : List SessEv) : SessLife :=
  es.foldl lifeStep s

/-- `balancedB k es`: starting with `k` clients outstanding, every `rem`
in `es` is preceded by a matching `add` (the calls come in balanced
pairs across the interleaved threads). -/
def balancedB : Nat → List SessEv → Bool
  | _, [] => true
  | k, .add :: t => balancedB (k + 1) t
  | k, .rem :: t => decide (0 < k) && balancedB (k - 1) t
  | k, .unreg :: t => balancedB k t

/-- Number of `add`s minus number of `rem`s, starting from `k`. -/
def kAfter : Nat → List SessEv → Nat
  | k, [] => k
  | k, .add :: t => kAfter (k + 1) t
  | k, .rem :: t => kAfter (k - 1) t
  | k, .unreg :: t => kAfter k t

/-- Whether the event sequence contains the Repository removal. -/
def hasUnregB : List SessEv → Bool
  | [] => false
  | .unreg :: _ => true
  | _ :: t => hasUnregB t

/-- Invariant of the lifecycle machine: `k` is the number of outstanding
`add`s and `u` whether an `unreg` has occurred. -/
def LifeInv (k : Nat) (u : Bool) (s : SessLife) : Prop :=
  s.registered = !u ∧
  (s.destroyed = true → s.clients = 0 ∧ s.dcount = 1 ∧ u = true) ∧
  (s.destroyed = false →
    s.clients = (k : Int) ∧ s.dcount = 0 ∧
      (s.registered = true ∨ 0 < s.clients))

theorem lifeStep_destroyed {s : SessLife} (e : SessEv)
    (hds : s.destroyed = true) : lifeStep s e = s := by
  simp [lifeStep, hds]

theorem lifeStep_add_inv {k : Nat} {u : Bool} {s : SessLife}
    (h : LifeInv k u s) : LifeInv (k + 1) u (lifeStep s .add) := by
  obtain ⟨hr, hd, hn⟩ := h
  cases hds : s.destroyed
  · have hstep : lifeStep s .add = { s with clients := s.clients + 1 } := by
      simp [lifeStep, hds]
    have hn' := hn hds
    rw [hstep]
    refine ⟨hr, ?_, ?_⟩
    · intro hf
      rw [show ({ s with clients := s.clients + 1 } : SessLife).destroyed
        = s.destroyed from rfl, hds] at hf
      cases hf
    · intro _
      refine ⟨?_, hn'.2.1, Or.inr ?_⟩
      · show s.clients + 1 = ((k : Nat) + 1 : Int)
        omega
      · show (0 : Int) < s.clients + 1
        omega
  · rw [lifeStep_destroyed _ hds]
    exact ⟨hr, hd, fun hf => by rw [hds] at hf; cases hf⟩

theorem lifeStep_rem_inv {k : Nat} {u : Bool} {s : SessLife}
    (hk : 0 < k) (h : LifeInv k u s) :
    LifeInv (k - 1) u (lifeStep s .rem) := by
  obtain ⟨hr, hd, hn⟩ := h
  cases hds : s.destroyed
  · have hn' := hn hds
    by_cases hz : s.clients - 1 = 0 ∧ s.registered = false
    · have hstep : lifeStep s .rem =
          { s with clients := s.clients - 1, destroyed := true,
                   dcount := s.dcount + 1 } := by
        simp [lifeStep, hds, hz]
      rw [hstep]
      have hu : u = true := by
        have : (!u) = false := hr ▸ hz.2
        simpa using this
      refine ⟨by simpa [hu] using hr, fun _ => ⟨hz.1, ?_, hu⟩, ?_⟩
      · show s.dcount + 1 = 1
        omega
      · intro hf
        cases hf
    · have hstep : lifeStep s .rem = { s with clients := s.clients - 1 } := by
        simp only [lifeStep, hds, Bool.false_eq_true, if_false]
        rw [if_neg hz]
      rw [hstep]
      refine ⟨hr, ?_, ?_⟩
      · intro hf
        rw [show ({ s with clients := s.clients - 1 } : SessLife).destroyed
          = s.destroyed from rfl, hds] at hf
        cases hf
      · intro _
        refine ⟨?_, hn'.2.1, ?_⟩
        · show s.clients - 1 = ((k - 1 : Nat) : Int)
          omega
        · rcases Decidable.em (s.registered = true) with hreg | hreg
          · exact Or.inl hreg
          · have hrf : s.registered = false := by
              cases hsr : s.registered
              · rfl
              · exact absurd hsr hreg
            have hcne : ¬s.clients - 1 = 0 := fun hc => hz ⟨hc, hrf⟩
            refine Or.inr ?_
            show (0 : Int) < s.clients - 1
            omega
  · rw [lifeStep_destroyed _ hds]
    exact ⟨hr, hd, fun hf => by rw [hds] at hf; cases hf⟩

theorem lifeStep_unreg_inv {k : Nat} {u : Bool} {s : SessLife}
    (h : LifeInv k u s) : LifeInv k true (lifeStep s .unreg) := by
  obtain ⟨hr, hd, hn⟩ := h
  cases hds : s.destroyed
  · have hn' := hn hds
    by_cases hz : s.clients = 0
    · have hstep : lifeStep s .unreg =
          { s with registered := false, destroyed := true,
                   dcount := s.dcount + 1 } := by
        simp [lifeStep, hds, hz]
      rw [hstep]
      refine ⟨rfl, fun _ => ⟨hz, ?_, rfl⟩, fun hf => by cases hf⟩
      show s.dcount + 1 = 1
      omega
    · have hstep : lifeStep s .unreg = { s with registered := false } := by
        simp [lifeStep, hds, hz]
      rw [hstep]
      refine ⟨rfl, ?_, ?_⟩
      · intro hf
        rw [show ({ s with registered := false } : SessLife).destroyed
          = s.destroyed from rfl, hds] at hf
        cases hf
      · intro _
        refine ⟨hn'.1, hn'.2.1, Or.inr ?_⟩
        show (0 : Int) < s.clients
        have := hn'.1
        omega
  · rw [lifeStep_destroyed _ hds]
    have hu : u = true := (hd hds).2.2
    exact ⟨by simpa [hu] using hr, fun _ => ⟨(hd hds).1, (hd hds).2.1, rfl⟩,
      fun hf => by rw [hds] at hf; cases hf⟩

theorem lifeRun_inv : ∀ (es : List SessEv) (k : Nat) (u : Bool)
    (s : SessLife), balancedB k es = true → LifeInv k u s →
    LifeInv (kAfter k es) (u || hasUnregB es) (lifeRun s es)
  | [], k, u, s, _, h => by simpa [lifeRun, kAfter, hasUnregB] using h
  | .add :: t, k, u, s, hb, h => by
    have hb' : balancedB (k + 1) t = true := by simpa [balancedB] using hb
    have := lifeRun_inv t (k + 1) u (lifeStep s .add) hb'
      (lifeStep_add_inv h)
    simpa [lifeRun, kAfter, hasUnregB, List.foldl] using this
  | .rem :: t, k, u, s, hb, h => by
    have hb0 : 0 < k ∧ balancedB (k - 1) t = true := by
      simpa [balancedB] using hb
    have := lifeRun_inv t (k - 1) u (lifeStep s .rem) hb0.2
      (lifeStep_rem_inv hb0.1 h)
    simpa [lifeRun, kAfter, hasUnregB, List.foldl] using this
  | .unreg :: t, k, u, s, hb, h => by
    have hb' : balancedB k t = true := by simpa [balancedB] using hb
    have := lifeRun_inv t k true (lifeStep s .unreg) hb'
      (lifeStep_unreg_inv h)
    simpa [lifeRun, kAfter, hasUnregB, List.foldl] using this

theorem balancedB_append : ∀ (p q : List SessEv) (k : Nat),
    balancedB k (p ++ q) = true → balancedB k p = true
  | [], _, _, _ => rfl
  | .add :: t, q, k, hb => by
    simp only [List.cons_append, balancedB] at hb ⊢
    exact balancedB_append t q (k + 1) hb
  | .rem :: t, q, k, hb => by
    simp only [List.cons_append, balancedB, Bool.and_eq_true] at hb ⊢
    exact ⟨hb.1, balancedB_append t q (k - 1) hb.2⟩
  | .unreg :: t, q, k, hb => by
    simp only [List.cons_append, balancedB] at hb ⊢
    exact balancedB_append t q k hb

/-- The lifecycle invariant at the initial state. -/
theorem lifeInv_init : LifeInv 0 false sessLifeInit := by
  refine ⟨rfl, by simp [sessLifeInit], by simp [sessLifeInit]⟩

/-- Session-level mutating actions other than reference counting, used
to state identity immutability. -/
inductive SessAction
  | rcv (op : OsqlOp)
  | dispatch
  | complete (rqid uuid : Nat) (xerr : Errstat)
  | tterm (lockOk : Bool)
  | selectv (tablename : String) (genid : Nat)
deriving Repr

/-- Apply a session-level action. -/
def sessApply (s : OsqlSess) (a : SessAction) : OsqlSess :=
  match a with
  | .rcv op => osql_sess_rcvop_deliver s op
  | .dispatch => osql_sess_set_dispatched s
  | .complete rqid uuid xerr => osql_sess_set_complete rqid uuid xerr s
  | .tterm lockOk => (osql_sess_try_terminate lockOk s).2
  | .selectv tablename genid => osql_cache_selectv s tablename genid

theorem osql_sess_reads_const (k : Nat) (s : OsqlSess)
    (h : s.completed ≠ 0) :
    osql_sess_reads k s = List.replicate k (some s.xerr) := by
  induction k with
  | zero => rfl
  | succ n ih =>
    simp [osql_sess_reads, osql_sess_read_complete, h, ih,
      List.replicate]

/-- C1: after create, N op deliveries, dispatch and set-complete with
status E, a waiter reading the completion fields under the completion
lock observes exactly E, and every one of its subsequent reads returns
that same value.  (The completer passes the session's identity;
`hrq` says the request id is a real id, never 0.) -/
theorem osql_sess_complete_observed (sql tzname : String)
    (type rqid uuid iq : Nat) (ops : List OsqlOp) (E : Errstat) (k : Nat)
    (hrq : rqid ≠ 0) :
    (osql_sess_read_complete
        (osql_sess_set_complete rqid uuid E
          (osql_sess_set_dispatched
            (ops.foldl osql_sess_rcvop_deliver
              (osql_sess_create_sock sql tzname type rqid uuid iq))))).1 =
      some E ∧
    osql_sess_reads k
        (osql_sess_set_complete rqid uuid E
          (osql_sess_set_dispatched
            (ops.foldl osql_sess_rcvop_deliver
              (osql_sess_create_sock sql tzname type rqid uuid iq)))) =
      List.replicate k (some E) := by
  constructor
  · simp [osql_sess_read_complete, osql_sess_set_complete, hrq]
  · rw [osql_sess_reads_const]
    · simp [osql_sess_set_complete]
    · simpa [osql_sess_set_complete] using hrq

/-- The ops of spec section 8's concrete scenario: sequence numbers
1, 2, 2 (duplicate), 3. -/
def c1ops : List OsqlOp :=
  [⟨1, 0, []⟩, ⟨2, 0, []⟩, ⟨2, 0, []⟩, ⟨3, 0, []⟩]

/-- C1 witness: session 42, four deliveries, dispatch, then completion
with the success status; two successive reads both observe it. -/
theorem osql_sess_complete_observed_w :
    (osql_sess_read_complete
        (osql_sess_set_complete 42 0 errstatOk
          (osql_sess_set_dispatched
            (c1ops.foldl osql_sess_rcvop_deliver
              (osql_sess_create_sock "q" "tz" 0 42 0 7))))).1 =
      some errstatOk ∧
    osql_sess_reads 2
        (osql_sess_set_complete 42 0 errstatOk
          (osql_sess_set_dispatched
            (c1ops.foldl osql_sess_rcvop_deliver
              (osql_sess_create_sock "q" "tz" 0 42 0 7)))) =
      List.replicate 2 (some errstatOk) :=
  osql_sess_complete_observed "q" "tz" 0 42 0 7 c1ops errstatOk 2
    (by decide)

/-- `k` successive deliveries of the same op to a session. -/
def deliverN : Nat → OsqlOp → OsqlSess → OsqlSess
  | 0, _, s => s
  | n + 1, op, s => deliverN n op (osql_sess_rcvop_deliver s op)

theorem osql_sess_rcvop_deliver_seq_le (s : OsqlSess) (op : OsqlOp) :
    op.seq ≤ (osql_sess_rcvop_deliver s op).seq := by
  by_cases h : op.seq ≤ s.seq <;>
    simp [osql_sess_rcvop_deliver, h]

theorem deliverN_noop (k : Nat) (s : OsqlSess) (op : OsqlOp)
    (h : op.seq ≤ s.seq) : deliverN k op s = s := by
  induction k with
  | zero => rfl
  | succ n ih =>
    have hstep : osql_sess_rcvop_deliver s op = s := by
      simp [osql_sess_rcvop_deliver, h]
    simp [deliverN, hstep, ih]

/-- C3: delivering an op whose sequence number is at most the highest
already recorded leaves the session's operation log unchanged, and
delivering the exact same op any number of times yields the same final
log contents as delivering it once. -/
theorem osql_sess_rcvop_seq_dedup (s t : OsqlSess) (op : OsqlOp)
    (k : Nat) (h : op.seq ≤ s.seq) :
    (osql_sess_rcvop_deliver s op).bplog = s.bplog ∧
    (deliverN (k + 1) op t).bplog = (osql_sess_rcvop_deliver t op).bplog := by
  constructor
  · simp [osql_sess_rcvop_deliver, h]
  · show (deliverN k op (osql_sess_rcvop_deliver t op)).bplog = _
    rw [deliverN_noop k _ op (osql_sess_rcvop_deliver_seq_le t op)]

/-- C3 witness: a session that has already seen sequence number 2 drops
a replayed op with sequence 2, and delivering an op three times leaves
the same log as delivering it once. -/
theorem osql_sess_rcvop_seq_dedup_w :
    (osql_sess_rcvop_deliver
        { osql_sess_create_sock "q" "tz" 0 42 0 7 with seq := 2 }
        ⟨2, 0, []⟩).bplog =
      ({ osql_sess_create_sock "q" "tz" 0 42 0 7 with seq := 2 } :
        OsqlSess).bplog ∧
    (deliverN 3 ⟨2, 0, []⟩
        (osql_sess_create_sock "q" "tz" 0 42 0 7)).bplog =
      (osql_sess_rcvop_deliver (osql_sess_create_sock "q" "tz" 0 42 0 7)
        ⟨2, 0, []⟩).bplog :=
  osql_sess_rcvop_seq_dedup
    { osql_sess_create_sock "q" "tz" 0 42 0 7 with seq := 2 }
    (osql_sess_create_sock "q" "tz" 0 42 0 7) ⟨2, 0, []⟩ 2 (by decide)

/-- C4: for every session and lock outcome, `osql_sess_try_terminate`
returns one of 0, -1 and 1; and after a first successful call a second
call returns 1 ("already handled") while leaving the session exactly
as the first call left it. -/
theorem osql_sess_try_terminate_spec (lockOk : Bool) (s : OsqlSess) :
    ((osql_sess_try_terminate lockOk s).1 = 0 ∨
      (osql_sess_try_terminate lockOk s).1 = -1 ∨
      (osql_sess_try_terminate lockOk s).1 = 1) ∧
    ((osql_sess_try_terminate true s).1 = 0 →
      osql_sess_try_terminate true (osql_sess_try_terminate true s).2 =
        (1, (osql_sess_try_terminate true s).2)) := by
  constructor
  · by_cases hl : lockOk = false
    · simp [osql_sess_try_terminate, hl]
    · by_cases hc : s.completed ≠ 0 ∨ s.dispatched = true ∨
          s.terminate = true
      · simp [osql_sess_try_terminate, hl, hc]
      · simp [osql_sess_try_terminate, hl, hc]
  · intro h
    have hc : ¬(s.completed ≠ 0 ∨ s.dispatched = true ∨
        s.terminate = true) := by
      intro hcc
      rw [show osql_sess_try_terminate true s = (1, s) from by
        simp [osql_sess_try_terminate, hcc]] at h
      simp at h
    have hres : osql_sess_try_terminate true s =
        (0, { s with terminate := true }) := by
      simp [osql_sess_try_terminate, hc]
    rw [hres]
    simp [osql_sess_try_terminate]

/-- C4 witness: terminating a fresh session returns one of the three
outcomes (here 0), and the second call reports it as already handled
with the state unchanged. -/
theorem osql_sess_try_terminate_spec_w :
    ((osql_sess_try_terminate true
        (osql_sess_create_sock "q" "tz" 0 42 0 7)).1 = 0 ∨
      (osql_sess_try_terminate true
        (osql_sess_create_sock "q" "tz" 0 42 0 7)).1 = -1 ∨
      (osql_sess_try_terminate true
        (osql_sess_create_sock "q" "tz" 0 42 0 7)).1 = 1) ∧
    osql_sess_try_terminate true
        (osql_sess_try_terminate true
          (osql_sess_create_sock "q" "tz" 0 42 0 7)).2 =
      (1, (osql_sess_try_terminate true
        (osql_sess_create_sock "q" "tz" 0 42 0 7)).2) :=
  ⟨(osql_sess_try_terminate_spec true
      (osql_sess_create_sock "q" "tz" 0 42 0 7)).1,
   (osql_sess_try_terminate_spec true
      (osql_sess_create_sock "q" "tz" 0 42 0 7)).2 (by decide)⟩

/-- C5: `osql_sess_rcvop` on an identity with no registered session
reports not-found (found = 0), returns success (0) to the delivering
thread, and leaves the Repository (hence every session) unchanged. -/
theorem osql_sess_rcvop_not_found (r : Repo) (rqid uuid : Nat)
    (op : OsqlOp) (h : repoFind r (sessKeyOf rqid uuid) = none) :
    osql_sess_rcvop r rqid uuid op = (0, 0, r) := by
  simp [osql_sess_rcvop, h]

/-- C5 witness: delivery to request id 42 on an empty Repository is a
reported not-found with no side effect. -/
theorem osql_sess_rcvop_not_found_w :
    osql_sess_rcvop ([] : Repo) 42 0 ⟨1, 0, []⟩ =
      (0, 0, ([] : Repo)) :=
  osql_sess_rcvop_not_found ([] : Repo) 42 0 ⟨1, 0, []⟩ rfl

/-- C2: along every interleaving of balanced add-client/rem-client
pairs (with the Repository removal as a third event), the reference
count never becomes negative at any prefix, destruction happens at most
once and only with a zero count on an unregistered session, and when all
pairs have completed and the session has been unregistered it is
destroyed exactly once. -/
theorem osql_sess_refcount_lifecycle (es p q : List SessEv)
    (hsplit : es = p ++ q) (hbal : balancedB 0 es = true) :
    0 ≤ (lifeRun sessLifeInit p).clients ∧
    (lifeRun sessLifeInit p).dcount ≤ 1 ∧
    ((lifeRun sessLifeInit p).destroyed = true →
      (lifeRun sessLifeInit p).clients = 0 ∧
      (lifeRun sessLifeInit p).registered = false) ∧
    (kAfter 0 es = 0 → hasUnregB es = true →
      (lifeRun sessLifeInit es).dcount = 1) := by
  have hbp : balancedB 0 p = true := balancedB_append p q 0 (hsplit ▸ hbal)
  obtain ⟨hr, hd, hn⟩ := lifeRun_inv p 0 false sessLifeInit hbp lifeInv_init
  refine ⟨?_, ?_, ?_, ?_⟩
  · cases hds : (lifeRun sessLifeInit p).destroyed
    · have := (hn hds).1
      omega
    · have := (hd hds).1
      omega
  · cases hds : (lifeRun sessLifeInit p).destroyed
    · have := (hn hds).2.1
      omega
    · have := (hd hds).2.1
      omega
  · intro hds
    refine ⟨(hd hds).1, ?_⟩
    have hu := (hd hds).2.2
    simpa [hu] using hr
  · intro hk hu
    obtain ⟨hr2, hd2, hn2⟩ := lifeRun_inv es 0 false sessLifeInit hbal
      lifeInv_init
    cases hds : (lifeRun sessLifeInit es).destroyed
    · exfalso
      have h1 := hn2 hds
      have hreg : (lifeRun sessLifeInit es).registered = false := by
        simpa [hu] using hr2
      rcases h1.2.2 with h2 | h2
      · rw [hreg] at h2
        cases h2
      · have h3 := h1.1
        omega
    · exact (hd2 hds).2.1

/-- C2 witness: two clients added, one removed, the session
unregistered, and the last client removed: the count stays nonnegative
and the session is destroyed exactly once, at zero count after
removal from the Repository. -/
theorem osql_sess_refcount_lifecycle_w :
    0 ≤ (lifeRun sessLifeInit
      [SessEv.add, SessEv.add, SessEv.rem, SessEv.unreg, SessEv.rem]).clients ∧
    (lifeRun sessLifeInit
      [SessEv.add, SessEv.add, SessEv.rem, SessEv.unreg, SessEv.rem]).dcount ≤ 1 ∧
    ((lifeRun sessLifeInit
        [SessEv.add, SessEv.add, SessEv.rem, SessEv.unreg, SessEv.rem]).destroyed = true →
      (lifeRun sessLifeInit
        [SessEv.add, SessEv.add, SessEv.rem, SessEv.unreg, SessEv.rem]).clients = 0 ∧
      (lifeRun sessLifeInit
        [SessEv.add, SessEv.add, SessEv.rem, SessEv.unreg, SessEv.rem]).registered = false) ∧
    (kAfter 0 [SessEv.add, SessEv.add, SessEv.rem, SessEv.unreg, SessEv.rem] = 0 →
      hasUnregB [SessEv.add, SessEv.add, SessEv.rem, SessEv.unreg, SessEv.rem] = true →
      (lifeRun sessLifeInit
        [SessEv.add, SessEv.add, SessEv.rem, SessEv.unreg, SessEv.rem]).dcount = 1) :=
  osql_sess_refcount_lifecycle
    [SessEv.add, SessEv.add, SessEv.rem, SessEv.unreg, SessEv.rem]
    [SessEv.add, SessEv.add, SessEv.rem, SessEv.unreg, SessEv.rem] []
    (by simp) (by decide)

theorem sessApply_preserves_id (s : OsqlSess) (a : SessAction) :
    (sessApply s a).rqid = s.rqid ∧ (sessApply s a).uuid = s.uuid := by
  cases a with
  | rcv op =>
    by_cases h : op.seq ≤ s.seq <;>
      simp [sessApply, osql_sess_rcvop_deliver, h]
  | dispatch => exact ⟨rfl, rfl⟩
  | complete r u e => exact ⟨rfl, rfl⟩
  | tterm lk =>
    by_cases hl : lk = false
    · simp [sessApply, osql_sess_try_terminate, hl]
    · by_cases hc : s.completed ≠ 0 ∨ s.dispatched = true ∨
          s.terminate = true <;>
        simp [sessApply, osql_sess_try_terminate, hl, hc]
  | selectv tn g =>
    by_cases h : (tn, g) ∈ s.selectvGenids <;>
      simp [sessApply, osql_cache_selectv, h]

theorem foldl_sessApply_id : ∀ (acts : List SessAction) (s : OsqlSess),
    (acts.foldl sessApply s).rqid = s.rqid ∧
    (acts.foldl sessApply s).uuid = s.uuid
  | [], _ => ⟨rfl, rfl⟩
  | a :: t, s => by
    have h1 := sessApply_preserves_id s a
    have h2 := foldl_sessApply_id t (sessApply s a)
    simp only [List.foldl]
    exact ⟨h2.1.trans h1.1, h2.2.trans h1.2⟩

/-- C6: a session is keyed by its UUID exactly when its request id is
the sentinel OSQL_RQID_USE_UUID and by the numeric id otherwise, and
the identity assigned at creation is immutable under every sequence of
session operations. -/
theorem osql_sess_identity_mode (sql tzname : String)
    (type rqid uuid iq : Nat) (acts : List SessAction) :
    (acts.foldl sessApply
      (osql_sess_create_sock sql tzname type rqid uuid iq)).rqid = rqid ∧
    (acts.foldl sessApply
      (osql_sess_create_sock sql tzname type rqid uuid iq)).uuid = uuid ∧
    (sessKeyOf
        (acts.foldl sessApply
          (osql_sess_create_sock sql tzname type rqid uuid iq)).rqid
        (acts.foldl sessApply
          (osql_sess_create_sock sql tzname type rqid uuid iq)).uuid =
        SessKey.uid uuid ↔ rqid = OSQL_RQID_USE_UUID) ∧
    (sessKeyOf
        (acts.foldl sessApply
          (osql_sess_create_sock sql tzname type rqid uuid iq)).rqid
        (acts.foldl sessApply
          (osql_sess_create_sock sql tzname type rqid uuid iq)).uuid =
        SessKey.num rqid ↔ ¬rqid = OSQL_RQID_USE_UUID) := by
  have hid := foldl_sessApply_id acts
    (osql_sess_create_sock sql tzname type rqid uuid iq)
  have hrq : (acts.foldl sessApply
      (osql_sess_create_sock sql tzname type rqid uuid iq)).rqid = rqid :=
    hid.1
  have huu : (acts.foldl sessApply
      (osql_sess_create_sock sql tzname type rqid uuid iq)).uuid = uuid :=
    hid.2
  rw [hrq, huu]
  by_cases hq : rqid = OSQL_RQID_USE_UUID <;>
    simp [sessKeyOf, hq]

theorem osql_cache_selectv_mem (s : OsqlSess) (tn : String) (g : Nat)
    (h : (tn, g) ∈ s.selectvGenids) : osql_cache_selectv s tn g = s := by
  simp [osql_cache_selectv, h]

/-- Record a whole list of (table, genid) pairs in order. -/
def cacheAll (s : OsqlSess) (ps : List (String × Nat)) : OsqlSess :=
  ps.foldl (fun a p => osql_cache_selectv a p.1 p.2) s

theorem cacheAll_spec : ∀ (ps : List (String × Nat)) (s : OsqlSess),
    (∀ p ∈ ps, p ∉ s.selectvGenids) → ps.Nodup →
    (cacheAll s ps).selectvGenids = s.selectvGenids ++ ps ∧
    (cacheAll s ps).tableversion = s.tableversion
  | [], s, _, _ => by simp [cacheAll]
  | p :: t, s, hdisj, hnd => by
    have hp : p ∉ s.selectvGenids := hdisj p (List.mem_cons_self p t)
    have hstep : osql_cache_selectv s p.1 p.2 =
        { s with selectvGenids := s.selectvGenids ++ [p] } := by
      simp [osql_cache_selectv, hp]
    have hnd' : t.Nodup := (List.nodup_cons.mp hnd).2
    have hpn : p ∉ t := (List.nodup_cons.mp hnd).1
    have hdisj' : ∀ q ∈ t, q ∉ s.selectvGenids ++ [p] := by
      intro q hq
      simp only [List.mem_append, List.mem_singleton]
      push_neg
      exact ⟨hdisj q (List.mem_cons_of_mem p hq),
        fun he => hpn (he ▸ hq)⟩
    have ih := cacheAll_spec t
      { s with selectvGenids := s.selectvGenids ++ [p] } hdisj' hnd'
    have hrun : cacheAll s (p :: t) =
        cacheAll { s with selectvGenids := s.selectvGenids ++ [p] } t := by
      simp [cacheAll, List.foldl, hstep]
    rw [hrun]
    constructor
    · rw [ih.1]
      simp
    · exact ih.2

theorem foldl_inc : ∀ (l : List (String × Nat)) (n : Nat),
    l.foldl (fun a _ => a + 1) n = n + l.length
  | [], n => by simp
  | _ :: t, n => by
    simp only [List.foldl, List.length_cons]
    rw [foldl_inc t (n + 1)]
    omega

theorem process_selectv_count (s : OsqlSess) :
    osql_process_selectv s (fun (n : Nat) _ _ _ => n + 1) 0 =
      s.selectvGenids.length := by
  show s.selectvGenids.foldl (fun a _ => a + 1) 0 = _
  rw [foldl_inc]
  omega

theorem foldl_trace (ver : Nat) : ∀ (l : List (String × Nat))
    (acc : List (String × Nat × Nat)),
    l.foldl (fun a p => a ++ [(p.1, ver, p.2)]) acc =
      acc ++ l.map (fun p => (p.1, ver, p.2))
  | [], acc => by simp
  | p :: t, acc => by
    simp only [List.foldl, List.map_cons]
    rw [foldl_trace ver t (acc ++ [(p.1, ver, p.2)])]
    simp

theorem process_selectv_trace (s : OsqlSess) :
    osql_process_selectv s
        (fun (l : List (String × Nat × Nat)) t v g => l ++ [(t, v, g)])
        [] =
      s.selectvGenids.map (fun p => (p.1, s.tableversion, p.2)) := by
  show s.selectvGenids.foldl
      (fun a p => a ++ [(p.1, s.tableversion, p.2)]) [] = _
  rw [foldl_trace]
  simp

/-- Number of occurrences of a writer-callback argument triple in the
replay trace. -/
def countOcc (x : String × Nat × Nat) :
    List (String × Nat × Nat) → Nat
  | [] => 0
  | y :: t => (if y = x then 1 else 0) + countOcc x t

theorem countOcc_eq_zero_of_not_mem {x : String × Nat × Nat} :
    ∀ {l : List (String × Nat × Nat)}, x ∉ l → countOcc x l = 0
  | [], _ => rfl
  | y :: t, h => by
    have hyx : ¬y = x := fun he => h (he ▸ List.mem_cons_self y t)
    have ht : x ∉ t := fun hm => h (List.mem_cons_of_mem y hm)
    simp [countOcc, hyx, countOcc_eq_zero_of_not_mem ht]

theorem countOcc_eq_one_of_mem {x : String × Nat × Nat} :
    ∀ {l : List (String × Nat × Nat)}, l.Nodup → x ∈ l →
      countOcc x l = 1
  | [], _, h => absurd h (List.not_mem_nil x)
  | y :: t, hnd, h => by
    rcases List.mem_cons.mp h with rfl | hm
    · have hxt : x ∉ t := (List.nodup_cons.mp hnd).1
      simp [countOcc, countOcc_eq_zero_of_not_mem hxt]
    · have hyx : ¬y = x := by
        rintro rfl
        exact (List.nodup_cons.mp hnd).1 hm
      simp [countOcc, hyx,
        countOcc_eq_one_of_mem (List.nodup_cons.mp hnd).2 hm]

/-- C7: after recording K pairwise-distinct (table, genid) pairs in any
order on a session with an empty cache, replay invokes the writer
exactly K times and passes each recorded pair exactly once; recording an
already-recorded pair again has no additional effect. -/
theorem osql_selectv_replay (s0 : OsqlSess) (ps : List (String × Nat))
    (h0 : s0.selectvGenids = []) (hnd : ps.Nodup) :
    osql_process_selectv (cacheAll s0 ps)
        (fun (n : Nat) _ _ _ => n + 1) 0 = ps.length ∧
    (∀ p ∈ ps,
      countOcc (p.1, (cacheAll s0 ps).tableversion, p.2)
        (osql_process_selectv (cacheAll s0 ps)
          (fun (l : List (String × Nat × Nat)) t v g => l ++ [(t, v, g)])
          []) = 1) ∧
    (∀ p ∈ ps,
      osql_cache_selectv (cacheAll s0 ps) p.1 p.2 = cacheAll s0 ps) := by
  have hdisj : ∀ p ∈ ps, p ∉ s0.selectvGenids := by
    intro p _
    rw [h0]
    exact List.not_mem_nil p
  have hspec := cacheAll_spec ps s0 hdisj hnd
  have hsel : (cacheAll s0 ps).selectvGenids = ps := by
    rw [hspec.1, h0]
    simp
  refine ⟨?_, ?_, ?_⟩
  · rw [process_selectv_count, hsel]
  · intro p hp
    rw [process_selectv_trace, hsel]
    have hinj : Function.Injective
        (fun q : String × Nat =>
          ((q.1, (cacheAll s0 ps).tableversion, q.2) :
            String × Nat × Nat)) := by
      intro a b hab
      cases a
      cases b
      simp only [Prod.mk.injEq] at hab
      simp [hab.1, hab.2.2]
    have hmap := hnd.map hinj
    have hmem := List.mem_map_of_mem
      (fun q : String × Nat =>
        ((q.1, (cacheAll s0 ps).tableversion, q.2) : String × Nat × Nat))
      hp
    exact countOcc_eq_one_of_mem hmap hmem
  · intro p hp
    apply osql_cache_selectv_mem
    rw [hsel]
    exact hp

/-- A fresh session for the replay witness. -/
def selectvW : OsqlSess := osql_sess_create_sock "q" "tz" 0 42 0 7

/-- Two distinct (table, genid) pairs for the replay witness. -/
def selectvPs : List (String × Nat) := [("t1", 7), ("t2", 8)]

/-- C7 witness: recording two distinct pairs makes replay invoke the
writer twice, once per pair, and re-recording either pair is a no-op. -/
theorem osql_selectv_replay_w :
    selectvPs.Nodup ∧
    (osql_process_selectv (cacheAll selectvW selectvPs)
        (fun (n : Nat) _ _ _ => n + 1) 0 = selectvPs.length ∧
    (∀ p ∈ selectvPs,
      countOcc (p.1, (cacheAll selectvW selectvPs).tableversion, p.2)
        (osql_process_selectv (cacheAll selectvW selectvPs)
          (fun (l : List (String × Nat × Nat)) t v g => l ++ [(t, v, g)])
          []) = 1) ∧
    (∀ p ∈ selectvPs,
      osql_cache_selectv (cacheAll selectvW selectvPs) p.1 p.2 =
        cacheAll selectvW selectvPs)) :=
  ⟨by decide, osql_selectv_replay selectvW selectvPs rfl (by decide)⟩

end Comdb2
